import Mathlib

/-!
Verification of the Hexagon remote runtime core
(`src/runtime/hexagon_remote/halide_hexagon_remote.cpp`).

The file shallowly embeds the five components the claims touch:
the module loader / power reference counter
(`halide_hexagon_remote_initialize_kernels`,
`halide_hexagon_remote_release_kernels`), the aligned allocator
(`halide_malloc`), the sequential task executor (`halide_do_task`,
`halide_do_par_for`) and the invocation marshaler
(`halide_hexagon_remote_run`).

Platform calls (`dlopen`, `dlsym`, `dlclose`, `HAP_power_set`,
`HAP_power_request`) are modelled by an environment record carrying their
outcomes, and the global state visible to the claims (the `context_count`
counter, the number of images currently opened by `dlopen` and not yet
closed by `dlclose`, and the HVX power state) is threaded explicitly.
Machine `int` values are modelled as `Int`; addresses as `Nat`
(allocations are assumed to lie inside the address space, so the
alignment arithmetic does not wrap).
-/

/-- Outcomes of the platform calls made during one
`halide_hexagon_remote_initialize_kernels` call: whether `dlopen`
succeeds, whether `dlsym` finds `halide_noos_set_runtime`, the status
returned by the found `set_runtime` entry point, and the status returned
by `HAP_power_set`. -/
structure LoadEnv where
  dlopen_ok : Bool
  set_runtime_found : Bool
  set_runtime_result : Int
  power_result : Int
deriving DecidableEq

/-- The global state of the remote service: the `context_count` power
reference counter (a C `int`, so it may go negative), the number of
module images currently loaded (`dlopen`ed and not `dlclose`d), and
whether the HVX power resource is on. -/
structure RState where
  context_count : Int
  open_modules : Int
  powered : Bool
deriving DecidableEq

/-- Result of one `halide_hexagon_remote_initialize_kernels` call: the
returned status, whether `*module_ptr` was written, and the new global
state. -/
structure InitResult where
  status : Int
  module_set : Bool
  state : RState
deriving DecidableEq

/-- `halide_hexagon_remote_initialize_kernels`, lines 80-140 of
`halide_hexagon_remote.cpp`.  `dlopen` failure returns -1; a missing
`halide_noos_set_runtime` symbol `dlclose`s and returns -1; a non-zero
`set_runtime` status `dlclose`s and returns that status; then
`*module_ptr` is written, and if `context_count == 0` the HVX power-up
request is issued — on its failure the function returns -1 without
`dlclose` and without touching `context_count`; otherwise
`context_count` is incremented and 0 returned. -/
def halide_hexagon_remote_initialize_kernels (env : LoadEnv) (s : RState) :
    InitResult :=
  if env.dlopen_ok = false then
    ⟨-1, false, s⟩
  else
    -- dlopen succeeded: one more image is open
    let s1 : RState := { s with open_modules := s.open_modules + 1 }
    if env.set_runtime_found = false then
      ⟨-1, false, { s1 with open_modules := s1.open_modules - 1 }⟩
    else if env.set_runtime_result ≠ 0 then
      ⟨env.set_runtime_result, false,
        { s1 with open_modules := s1.open_modules - 1 }⟩
    else
      -- *module_ptr = reinterpret_cast<handle_t>(lib);
      if s1.context_count = 0 then
        if env.power_result ≠ 0 then
          ⟨-1, true, s1⟩
        else
          ⟨0, true, { s1 with context_count := s1.context_count + 1,
                              powered := true }⟩
      else
        ⟨0, true, { s1 with context_count := s1.context_count + 1 }⟩

/-- `halide_hexagon_remote_release_kernels`, lines 187-195: `dlclose` the
module, then `if (context_count-- == 0) HAP_power_request(0, 0, -1);`,
i.e. the old value of the counter is tested against zero and the counter
is decremented unconditionally; finally return 0. -/
def halide_hexagon_remote_release_kernels (s : RState) : Int × RState :=
  let s1 : RState := { s with open_modules := s.open_modules - 1 }
  if s1.context_count = 0 then
    (0, { s1 with context_count := s1.context_count - 1, powered := false })
  else
    (0, { s1 with context_count := s1.context_count - 1 })

/-- The initial global state: `int context_count = 0;`, no image loaded,
power off. -/
def s0 : RState := ⟨0, 0, false⟩

/-- A load environment in which every platform call succeeds. -/
def goodEnv : LoadEnv := ⟨true, true, 0, 0⟩

/-- A load environment in which the image opens and the runtime installs,
but `HAP_power_set` is denied with status 1. -/
def powerFailEnv : LoadEnv := ⟨true, true, 0, 1⟩

/-- The fixed alignment constant of `halide_malloc`:
`const size_t alignment = 128;`. -/
def alignment : Nat := 128

/-- `sizeof(void*)` on the 32-bit Hexagon target. -/
def ptrSize : Nat := 4

/-- The size `halide_malloc` passes to the underlying `malloc` for a
request of `x` bytes: `malloc(x + alignment)`. -/
def mallocUnderlyingSize (x : Nat) : Nat := x + alignment

/-- `v & ~(alignment - 1)` for the power-of-two `alignment = 128`:
clearing the low seven bits of an address. -/
def alignDown (v : Nat) : Nat := v - v % alignment

/-- The aligned pointer `halide_malloc` returns, as a function of the
address `orig` returned by the underlying `malloc`:
`(void *)(((size_t)orig + alignment + sizeof(void*) - 1) & ~(alignment - 1))`. -/
def halide_malloc_ptr (orig : Nat) : Nat :=
  alignDown (orig + alignment + ptrSize - 1)

/-- `halide_do_task`: invokes the task callback at one index and returns
its status unchanged.  The `user_context` and `closure` arguments are
passed through unmodified by `halide_do_par_for`, so they are absorbed
into the callback `f`. -/
def halide_do_task (f : Int → Int) (idx : Int) : Int := f idx

/-- The loop body of `halide_do_par_for`, by the number of remaining
iterations: `for (x = min; x < min + size; x++) { if (r = do_task(x)) return r; }
return 0;`. -/
def par_for_loop (f : Int → Int) (x : Int) : Nat → Int
  | 0 => 0
  | Nat.succ n =>
    let result := halide_do_task f x
    if result ≠ 0 then result else par_for_loop f (x + 1) n

/-- `halide_do_par_for`, lines 56-65: runs `halide_do_task` at
`min, min+1, ...` while the index is below `min + size`, returning the
first non-zero status, else 0.  A non-positive `size` gives zero
iterations. -/
def halide_do_par_for (f : Int → Int) (min size : Int) : Int :=
  par_for_loop f min size.toNat

/-- The indices at which `par_for_loop` invokes `halide_do_task`, in
invocation order. -/
def par_for_trace (f : Int → Int) (x : Int) : Nat → List Int
  | 0 => []
  | Nat.succ n =>
    x :: (if halide_do_task f x ≠ 0 then [] else par_for_trace f (x + 1) n)

/-- The indices at which `halide_do_par_for` invokes `halide_do_task`,
in invocation order. -/
def halide_do_par_for_trace (f : Int → Int) (min size : Int) : List Int :=
  par_for_trace f min size.toNat

/-- `halide_hexagon_remote_buffer`: the marshaling core reads only its
`data` pointer (modelled as an address). -/
structure buffer where
  data : Nat
deriving DecidableEq

/-- The dummy `buffer_t` built on the stack by
`halide_hexagon_remote_run`: a `dev` field and a `host` field.  Only
`host` is ever assigned. -/
structure buffer_t where
  dev : Nat
  host : Nat
deriving DecidableEq

/-- One `void *` slot of the argument array `args`: either the address
of a stack `buffer_t` descriptor (modelled by the descriptor's value,
which is never mutated after the slot is written) or a raw scalar data
pointer. -/
inductive ArgSlot where
  | bufferArg : buffer_t → ArgSlot
  | scalarArg : Nat → ArgSlot
deriving DecidableEq

/-- The slots written by one of the two buffer loops of
`halide_hexagon_remote_run`: the loop walks the buffer list, gives the
next descriptor (whose uninitialized `dev` field holds the indeterminate
alloca contents `devInit i` for descriptor slot `i`, starting at `i0`)
its `host := data` assignment, and stores the descriptor's address in
the next argument slot. -/
def bufferSlots (devInit : Nat → Nat) (i0 : Nat) : List buffer → List ArgSlot
  | [] => []
  | b :: bs => ArgSlot.bufferArg ⟨devInit i0, b.data⟩ ::
      bufferSlots devInit (i0 + 1) bs

/-- The slots written by the scalar loop of `halide_hexagon_remote_run`:
`*next_arg = input_scalarsPtrs[i].data;`. -/
def scalarSlots : List buffer → List ArgSlot
  | [] => []
  | b :: bs => ArgSlot.scalarArg b.data :: scalarSlots bs

/-- The full argument array built by `halide_hexagon_remote_run`, lines
163-181: input buffers first, then input scalars, then output buffers,
with the descriptor array shared between the two buffer loops
(`next_buffer_t` keeps advancing, so output descriptors start at slot
`inB.length`). -/
def argsList (devInit : Nat → Nat) (inB inS outB : List buffer) :
    List ArgSlot :=
  bufferSlots devInit 0 inB ++ scalarSlots inS ++
    bufferSlots devInit inB.length outB

/-- `halide_hexagon_remote_run`, lines 146-185: builds the argument
array and returns `pipeline(args)` verbatim.  The resolved entry point
is modelled as a function from the argument array to its `int` status. -/
def halide_hexagon_remote_run (pipeline : List ArgSlot → Int)
    (devInit : Nat → Nat) (inB inS outB : List buffer) : Int :=
  pipeline (argsList devInit inB inS outB)

/-- C9: `halide_hexagon_remote_release_kernels` returns zero
unconditionally, whatever the global state: no problem during unloading
or power-down is ever propagated to the caller. -/
theorem release_kernels_returns_zero (s : RState) :
    (halide_hexagon_remote_release_kernels s).1 = 0 := by
  unfold halide_hexagon_remote_release_kernels
  dsimp only
  split <;> rfl

/-- C1 (code bug, evaluated at N = 1): starting from the initial state,
one fully successful `initialize_kernels` powers the resource on and sets
`context_count` to 1, but the matching `release_kernels` leaves the
resource powered on even though the count is back to 0 — the power-down
request is never issued, because the code tests `context_count-- == 0`
on the value before the decrement. -/
theorem load_then_release_leaves_power_on :
    (halide_hexagon_remote_initialize_kernels goodEnv s0).status = 0 ∧
    (halide_hexagon_remote_initialize_kernels goodEnv s0).state.context_count
      = 1 ∧
    (halide_hexagon_remote_initialize_kernels goodEnv s0).state.powered
      = true ∧
    (halide_hexagon_remote_release_kernels
        (halide_hexagon_remote_initialize_kernels goodEnv s0).state).2.context_count
      = 0 ∧
    (halide_hexagon_remote_release_kernels
        (halide_hexagon_remote_initialize_kernels goodEnv s0).state).2.powered
      = true := by
  decide

/-- C4 (code bug): a release performed with `context_count` already zero
executes `context_count--` and drives the counter to -1 (and, at that
moment, issues the power-down request): the decrement is neither
rejected nor a no-op. -/
theorem release_at_zero_underflows :
    (halide_hexagon_remote_release_kernels ⟨0, 1, true⟩).2.context_count
      = -1 := by
  decide

/-- C2 (code bug): when the image opens and the runtime installs but the
power-on request is denied, `initialize_kernels` returns -1 with
`*module_ptr` already written and the module image still loaded — the
`dlclose` rollback performed on the two earlier failure paths is missing
here.  Only the power reference count is left unchanged. -/
theorem power_denied_leaves_module_loaded :
    (halide_hexagon_remote_initialize_kernels powerFailEnv s0).status = -1 ∧
    (halide_hexagon_remote_initialize_kernels powerFailEnv s0).module_set
      = true ∧
    (halide_hexagon_remote_initialize_kernels powerFailEnv s0).state.open_modules
      = 1 ∧
    (halide_hexagon_remote_initialize_kernels powerFailEnv s0).state.context_count
      = 0 := by
  decide

/-- C8: with the image opened, a missing `halide_noos_set_runtime`
symbol makes `initialize_kernels` return -1 and restore the global state
(the image is `dlclose`d before returning); a present symbol whose
installation call reports a non-zero status makes it return that very
status, again with the image unloaded and the state restored. -/
theorem initialize_bind_failure (env : LoadEnv) (s : RState)
    (hopen : env.dlopen_ok = true) :
    (env.set_runtime_found = false →
      (halide_hexagon_remote_initialize_kernels env s).status = -1 ∧
      (halide_hexagon_remote_initialize_kernels env s).module_set = false ∧
      (halide_hexagon_remote_initialize_kernels env s).state.open_modules
        = s.open_modules ∧
      (halide_hexagon_remote_initialize_kernels env s).state.context_count
        = s.context_count ∧
      (halide_hexagon_remote_initialize_kernels env s).state.powered
        = s.powered) ∧
    (env.set_runtime_found = true → env.set_runtime_result ≠ 0 →
      (halide_hexagon_remote_initialize_kernels env s).status
        = env.set_runtime_result ∧
      (halide_hexagon_remote_initialize_kernels env s).status ≠ 0 ∧
      (halide_hexagon_remote_initialize_kernels env s).module_set = false ∧
      (halide_hexagon_remote_initialize_kernels env s).state.open_modules
        = s.open_modules ∧
      (halide_hexagon_remote_initialize_kernels env s).state.context_count
        = s.context_count ∧
      (halide_hexagon_remote_initialize_kernels env s).state.powered
        = s.powered) := by
  constructor
  · intro hsym
    simp only [halide_hexagon_remote_initialize_kernels, hopen, hsym]
    norm_num
  · intro hsym hres
    simp only [halide_hexagon_remote_initialize_kernels, hopen, hsym]
    norm_num [hres]

/-- Witness for C8: concrete runs through both failure branches. -/
theorem initialize_bind_failure_witness :
    (halide_hexagon_remote_initialize_kernels ⟨true, false, 0, 0⟩ s0).status
      = -1 ∧
    (halide_hexagon_remote_initialize_kernels ⟨true, false, 0, 0⟩ s0).state.open_modules
      = s0.open_modules ∧
    (halide_hexagon_remote_initialize_kernels ⟨true, true, 7, 0⟩ s0).status
      = 7 ∧
    (halide_hexagon_remote_initialize_kernels ⟨true, true, 7, 0⟩ s0).state.open_modules
      = s0.open_modules := by
  have h1 := (initialize_bind_failure ⟨true, false, 0, 0⟩ s0 rfl).1 rfl
  have h2 := (initialize_bind_failure ⟨true, true, 7, 0⟩ s0 rfl).2 rfl
    (by decide)
  exact ⟨h1.1, h1.2.2.1, h2.1, h2.2.2.2.1⟩

/-- C10: for every address `orig` the underlying `malloc` may return,
the aligned pointer computed by `halide_malloc` is at least
`sizeof(void*)` bytes past `orig`, so the bookkeeping store
`((void **)ptr)[-1] = orig;` writes at or after the start of the
underlying allocation, never before it. -/
theorem halide_malloc_ptr_past_start (orig : Nat) :
    orig + ptrSize ≤ halide_malloc_ptr orig := by
  unfold halide_malloc_ptr alignDown alignment ptrSize
  omega

/-- C3 (amended): `halide_malloc` over-allocates by exactly `alignment`
bytes (not by `alignment + sizeof(void*)`); still, for every request
`x` and every underlying address `orig` that is pointer-size aligned
(as `malloc` guarantees), the returned address is a multiple of 128 and
heads a region of at least `x` usable bytes lying inside the underlying
allocation. -/
theorem halide_malloc_aligned_and_sized (x orig : Nat)
    (halign : orig % ptrSize = 0) :
    halide_malloc_ptr orig % alignment = 0 ∧
    orig ≤ halide_malloc_ptr orig ∧
    halide_malloc_ptr orig + x ≤ orig + mallocUnderlyingSize x ∧
    mallocUnderlyingSize x = x + alignment := by
  simp only [halide_malloc_ptr, alignDown, mallocUnderlyingSize, alignment,
    ptrSize] at halign ⊢
  refine ⟨by omega, by omega, by omega, trivial⟩

/-- Witness for C3's amended theorem at `x = 5`, `orig = 1000`. -/
theorem halide_malloc_aligned_and_sized_witness :
    halide_malloc_ptr 1000 % alignment = 0 ∧
    1000 ≤ halide_malloc_ptr 1000 ∧
    halide_malloc_ptr 1000 + 5 ≤ 1000 + mallocUnderlyingSize 5 ∧
    mallocUnderlyingSize 5 = 5 + alignment :=
  halide_malloc_aligned_and_sized 5 1000 (by decide)

/-- Counterexample for C3 as stated: the underlying allocation for a
request of 0 bytes is `0 + alignment = 128` bytes, which is smaller
than `alignment + ptrSize = 132` — the code does not over-allocate by
at least `alignment` plus the pointer size. -/
theorem malloc_underlying_size_not_extra :
    mallocUnderlyingSize 0 < 0 + alignment + ptrSize := by
  decide

theorem bufferSlots_length (d : Nat → Nat) (i0 : Nat) (bs : List buffer) :
    (bufferSlots d i0 bs).length = bs.length := by
  induction bs generalizing i0 with
  | nil => rfl
  | cons b bs ih => simp [bufferSlots, ih]

theorem scalarSlots_length (bs : List buffer) :
    (scalarSlots bs).length = bs.length := by
  induction bs with
  | nil => rfl
  | cons b bs ih => simp [scalarSlots, ih]

theorem bufferSlots_getElem? (d : Nat → Nat) (i0 : Nat) (bs : List buffer)
    (i : Nat) (h : i < bs.length) :
    (bufferSlots d i0 bs)[i]? =
      some (ArgSlot.bufferArg ⟨d (i0 + i), (bs.get ⟨i, h⟩).data⟩) := by
  induction bs generalizing i0 i with
  | nil => simp at h
  | cons b bs ih =>
    cases i with
    | zero => simp [bufferSlots]
    | succ i =>
      have h2 : i < bs.length := by simpa using h
      have := ih (i0 + 1) i h2
      simpa [bufferSlots, Nat.add_assoc, Nat.add_comm 1 i] using this

theorem scalarSlots_getElem? (bs : List buffer) (i : Nat)
    (h : i < bs.length) :
    (scalarSlots bs)[i]? = some (ArgSlot.scalarArg (bs.get ⟨i, h⟩).data) := by
  induction bs generalizing i with
  | nil => simp at h
  | cons b bs ih =>
    cases i with
    | zero => simp [scalarSlots]
    | succ i =>
      have h2 : i < bs.length := by simpa using h
      simpa [scalarSlots] using ih i h2

theorem argsList_length (d : Nat → Nat) (inB inS outB : List buffer) :
    (argsList d inB inS outB).length =
      inB.length + inS.length + outB.length := by
  simp [argsList, bufferSlots_length, scalarSlots_length]
  omega

theorem argsList_input_buffer (d : Nat → Nat) (inB inS outB : List buffer)
    (i : Nat) (h : i < inB.length) :
    (argsList d inB inS outB)[i]? =
      some (ArgSlot.bufferArg ⟨d i, (inB.get ⟨i, h⟩).data⟩) := by
  rw [argsList, List.append_assoc, List.getElem?_append_left
    (by rw [bufferSlots_length]; exact h)]
  simpa using bufferSlots_getElem? d 0 inB i h

theorem argsList_input_scalar (d : Nat → Nat) (inB inS outB : List buffer)
    (j : Nat) (h : j < inS.length) :
    (argsList d inB inS outB)[inB.length + j]? =
      some (ArgSlot.scalarArg (inS.get ⟨j, h⟩).data) := by
  rw [argsList, List.append_assoc, List.getElem?_append_right
    (by rw [bufferSlots_length]; omega)]
  rw [bufferSlots_length]
  rw [List.getElem?_append_left (by rw [scalarSlots_length]; omega)]
  have : inB.length + j - inB.length = j := by omega
  rw [this]
  exact scalarSlots_getElem? inS j h

theorem argsList_output_buffer (d : Nat → Nat) (inB inS outB : List buffer)
    (k : Nat) (h : k < outB.length) :
    (argsList d inB inS outB)[inB.length + inS.length + k]? =
      some (ArgSlot.bufferArg ⟨d (inB.length + k),
        (outB.get ⟨k, h⟩).data⟩) := by
  rw [argsList, List.append_assoc, List.getElem?_append_right
    (by rw [bufferSlots_length]; omega)]
  rw [bufferSlots_length]
  rw [List.getElem?_append_right (by rw [scalarSlots_length]; omega)]
  rw [scalarSlots_length]
  have : inB.length + inS.length + k - inB.length - inS.length = k := by omega
  rw [this]
  exact bufferSlots_getElem? d inB.length outB k h

/-- C6: `halide_hexagon_remote_run` builds one flat positional argument
list — input buffers first, then input scalars, then output buffers —
where each buffer slot holds a descriptor whose `host` field is copied
from that buffer's `data` pointer, each scalar slot holds the scalar's
`data` pointer directly, and the entry point's status is returned
verbatim. -/
theorem run_marshals_args (pipeline : List ArgSlot → Int) (d : Nat → Nat)
    (inB inS outB : List buffer) :
    halide_hexagon_remote_run pipeline d inB inS outB =
      pipeline (argsList d inB inS outB) ∧
    (argsList d inB inS outB).length =
      inB.length + inS.length + outB.length ∧
    (∀ i (h : i < inB.length), (argsList d inB inS outB)[i]? =
      some (ArgSlot.bufferArg ⟨d i, (inB.get ⟨i, h⟩).data⟩)) ∧
    (∀ j (h : j < inS.length), (argsList d inB inS outB)[inB.length + j]? =
      some (ArgSlot.scalarArg (inS.get ⟨j, h⟩).data)) ∧
    (∀ k (h : k < outB.length),
      (argsList d inB inS outB)[inB.length + inS.length + k]? =
        some (ArgSlot.bufferArg ⟨d (inB.length + k),
          (outB.get ⟨k, h⟩).data⟩)) :=
  ⟨rfl, argsList_length d inB inS outB,
   fun i h => argsList_input_buffer d inB inS outB i h,
   fun j h => argsList_input_scalar d inB inS outB j h,
   fun k h => argsList_output_buffer d inB inS outB k h⟩

/-- A concrete pipeline returning the number of argument slots. -/
def pipeLen : List ArgSlot → Int := fun l => (l.length : Int)

/-- Witness for C6 with two input buffers, one scalar and one output
buffer. -/
theorem run_marshals_args_witness :
    halide_hexagon_remote_run pipeLen (fun i => i + 10) [⟨3⟩, ⟨4⟩] [⟨5⟩]
      [⟨6⟩] = pipeLen (argsList (fun i => i + 10) [⟨3⟩, ⟨4⟩] [⟨5⟩] [⟨6⟩]) ∧
    (argsList (fun i => i + 10) [⟨3⟩, ⟨4⟩] [⟨5⟩] [⟨6⟩])[0]? =
      some (ArgSlot.bufferArg ⟨10, 3⟩) ∧
    (argsList (fun i => i + 10) [⟨3⟩, ⟨4⟩] [⟨5⟩] [⟨6⟩])[2]? =
      some (ArgSlot.scalarArg 5) ∧
    (argsList (fun i => i + 10) [⟨3⟩, ⟨4⟩] [⟨5⟩] [⟨6⟩])[3]? =
      some (ArgSlot.bufferArg ⟨12, 6⟩) := by
  have h := run_marshals_args pipeLen (fun i => i + 10) [⟨3⟩, ⟨4⟩] [⟨5⟩] [⟨6⟩]
  refine ⟨h.1, ?_, ?_, ?_⟩
  · simpa using h.2.2.1 0 (by decide)
  · simpa using h.2.2.2.1 0 (by decide)
  · simpa using h.2.2.2.2 0 (by decide)

/-- C7 (amended): each marshaled buffer descriptor's `host` field equals
the corresponding Buffer Descriptor's `data` pointer, while its `dev`
field is just the descriptor slot's indeterminate initial contents —
the code never writes `dev`, so nothing makes it zero. -/
theorem marshaled_descriptor_fields (d : Nat → Nat)
    (inB inS outB : List buffer) :
    (∀ i (h : i < inB.length), ∃ bt : buffer_t,
      (argsList d inB inS outB)[i]? = some (ArgSlot.bufferArg bt) ∧
      bt.host = (inB.get ⟨i, h⟩).data ∧ bt.dev = d i) ∧
    (∀ k (h : k < outB.length), ∃ bt : buffer_t,
      (argsList d inB inS outB)[inB.length + inS.length + k]? =
        some (ArgSlot.bufferArg bt) ∧
      bt.host = (outB.get ⟨k, h⟩).data ∧ bt.dev = d (inB.length + k)) :=
  ⟨fun i h => ⟨⟨d i, (inB.get ⟨i, h⟩).data⟩,
     argsList_input_buffer d inB inS outB i h, rfl, rfl⟩,
   fun k h => ⟨⟨d (inB.length + k), (outB.get ⟨k, h⟩).data⟩,
     argsList_output_buffer d inB inS outB k h, rfl, rfl⟩⟩

/-- Witness for C7's amended theorem: one input buffer with data
pointer 3 and uninitialized descriptor contents 9. -/
theorem marshaled_descriptor_fields_witness :
    ∃ bt : buffer_t,
      (argsList (fun _ => 9) [⟨3⟩] [] [⟨6⟩])[0]? =
        some (ArgSlot.bufferArg bt) ∧ bt.host = 3 ∧ bt.dev = 9 := by
  simpa using
    (marshaled_descriptor_fields (fun _ => 9) [⟨3⟩] [] [⟨6⟩]).1 0 (by decide)

/-- Counterexample for C7 as stated: when the stack slot backing the
descriptor happens to hold 7, the marshaled descriptor for the single
input buffer has `dev = 7`, not zero — the code never assigns the `dev`
field. -/
theorem marshaled_dev_not_always_zero :
    ¬ (∀ bt : buffer_t,
        ArgSlot.bufferArg bt ∈ argsList (fun _ => 7) [⟨5⟩] [] [] →
          bt.dev = 0) := by
  intro hall
  exact absurd (hall ⟨7, 5⟩ (by decide)) (by decide)

theorem range_map_shift (x : Int) (n : Nat) :
    (List.range (n + 1)).map (fun j : Nat => x + (j : Int)) =
      x :: (List.range n).map (fun j : Nat => x + 1 + (j : Int)) := by
  rw [List.range_succ_eq_map, List.map_cons, List.map_map]
  congr 1
  · simp
  · congr 1
    funext j
    simp [Function.comp, Nat.succ_eq_add_one]
    ring

theorem par_for_loop_all_zero (f : Int → Int) (n : Nat) : ∀ (x : Int),
    (∀ j : Nat, j < n → f (x + j) = 0) →
    par_for_loop f x n = 0 ∧
    par_for_trace f x n =
      (List.range n).map (fun j : Nat => x + (j : Int)) := by
  induction n with
  | zero => intro x _; exact ⟨rfl, rfl⟩
  | succ n ih =>
    intro x h
    have h0 : f x = 0 := by simpa using h 0 (Nat.succ_pos n)
    have hrest : ∀ j : Nat, j < n → f ((x + 1) + j) = 0 := by
      intro j hj
      have := h (j + 1) (by omega)
      have heq : x + ((j : Int) + 1) = x + 1 + (j : Int) := by ring
      simpa [Int.natCast_add, heq] using this
    have hih := ih (x + 1) hrest
    constructor
    · simp [par_for_loop, halide_do_task, h0, hih.1]
    · show x :: (if halide_do_task f x ≠ 0 then []
          else par_for_trace f (x + 1) n) = _
      rw [if_neg (by simp [halide_do_task, h0]), hih.2, range_map_shift]

theorem par_for_loop_first_fail (f : Int → Int) (n : Nat) : ∀ (x : Int)
    (k : Nat), k < n → f (x + k) ≠ 0 →
    (∀ j : Nat, j < k → f (x + j) = 0) →
    par_for_loop f x n = f (x + k) ∧
    par_for_trace f x n =
      (List.range (k + 1)).map (fun j : Nat => x + (j : Int)) := by
  induction n with
  | zero => intro x k hk; omega
  | succ n ih =>
    intro x k hk hfk hprev
    cases k with
    | zero =>
      have h0 : f x ≠ 0 := by simpa using hfk
      constructor
      · simp [par_for_loop, halide_do_task, h0]
      · show x :: (if halide_do_task f x ≠ 0 then []
            else par_for_trace f (x + 1) n) = _
        rw [if_pos (by simp [halide_do_task, h0])]
        rw [show List.range 1 = [0] from rfl]
        simp
    | succ k =>
      have h0 : f x = 0 := by simpa using hprev 0 (Nat.succ_pos k)
      have hfk2 : f ((x + 1) + k) ≠ 0 := by
        have heq : x + 1 + (k : Int) = x + ((k : Int) + 1) := by ring
        rw [heq]
        simpa [Int.natCast_add] using hfk
      have hprev2 : ∀ j : Nat, j < k → f ((x + 1) + j) = 0 := by
        intro j hj
        have := hprev (j + 1) (by omega)
        have heq : x + ((j : Int) + 1) = x + 1 + (j : Int) := by ring
        simpa [Int.natCast_add, heq] using this
      have hih := ih (x + 1) k (by omega) hfk2 hprev2
      constructor
      · have heq : x + 1 + (k : Int) = x + ((k : Int) + 1) := by ring
        have hv := hih.1
        rw [heq] at hv
        simp only [par_for_loop, halide_do_task, h0, ne_eq,
          not_true_eq_false, if_neg, ite_false]
        simpa [Int.natCast_add] using hv
      · show x :: (if halide_do_task f x ≠ 0 then []
            else par_for_trace f (x + 1) n) = _
        rw [if_neg (by simp [halide_do_task, h0]), hih.2, ← range_map_shift]

/-- C5: `halide_do_par_for` invokes `halide_do_task` once per index of
`[min, min + size)` in ascending order; if every invocation returns
zero it returns zero after invoking the whole range, and if `k` is the
first index returning a non-zero status it returns that status having
invoked exactly `min..k`, never an index beyond `k`. -/
theorem halide_do_par_for_spec (f : Int → Int) (min size : Int)
    (hsize : 0 ≤ size) :
    ((∀ i : Int, min ≤ i → i < min + size → f i = 0) →
      halide_do_par_for f min size = 0 ∧
      halide_do_par_for_trace f min size =
        (List.range size.toNat).map (fun j : Nat => min + (j : Int))) ∧
    (∀ k : Int, min ≤ k → k < min + size → f k ≠ 0 →
      (∀ i : Int, min ≤ i → i < k → f i = 0) →
      halide_do_par_for f min size = f k ∧
      halide_do_par_for_trace f min size =
        (List.range ((k - min).toNat + 1)).map
          (fun j : Nat => min + (j : Int))) := by
  constructor
  · intro h
    have hall : ∀ j : Nat, j < size.toNat → f (min + j) = 0 := by
      intro j hj
      apply h <;> omega
    exact par_for_loop_all_zero f size.toNat min hall
  · intro k hk1 hk2 hfk hprev
    have hkn : (k - min).toNat < size.toNat := by omega
    have hfk2 : f (min + ((k - min).toNat : Int)) ≠ 0 := by
      have heq : min + ((k - min).toNat : Int) = k := by omega
      rw [heq]
      exact hfk
    have hprev2 : ∀ j : Nat, j < (k - min).toNat → f (min + j) = 0 := by
      intro j hj
      apply hprev <;> omega
    have h := par_for_loop_first_fail f size.toNat min (k - min).toNat hkn
      hfk2 hprev2
    constructor
    · show par_for_loop f min size.toNat = f k
      rw [h.1]
      congr 1
      omega
    · exact h.2

/-- A task that fails with status 3 at index 2 and succeeds elsewhere. -/
def failTask : Int → Int := fun i => if i = 2 then 3 else 0

/-- Witness for C5: over `[0, 4)`, `failTask` stops the loop at index 2
with status 3 after invoking exactly the indices 0, 1, 2. -/
theorem halide_do_par_for_spec_witness :
    halide_do_par_for failTask 0 4 = failTask 2 ∧
    halide_do_par_for_trace failTask 0 4 =
      (List.range (((2 : Int) - 0).toNat + 1)).map
        (fun j : Nat => (0 : Int) + (j : Int)) := by
  have hprev : ∀ i : Int, (0 : Int) ≤ i → i < 2 → failTask i = 0 := by
    intro i h1 h2
    have h3 : i = 0 ∨ i = 1 := by omega
    rcases h3 with rfl | rfl <;> decide
  exact (halide_do_par_for_spec failTask 0 4 (by decide)).2 2 (by decide)
    (by decide) (by decide) hprev
